import Mathlib

/-!
# Verification of the Agent Form & Processing-Status Controller

Shallow embedding of the client-side controller shared by the create page
(`src/static/js/config.js`) and the manage page (`src/static/js/manage.js`,
first variant) of the repository, together with proofs about the File
Staging Set, the Upload Submitter, the Processing-Status Poller, the
Change Detector and the Form Controller.

JavaScript `File` objects and the lightweight descriptors built for
server-known files are both embedded as `FileEntry`; the `isFile` field
records `instanceof File`, and `isExisting` records the truthiness of the
`isExisting` property (`undefined` on raw `File` objects, hence `false`).
-/

namespace Zapient

/-- JS `String.prototype.toLowerCase` restricted to the ASCII mapping used
by `Char.toLower` (the file-extension allow-list is ASCII). -/
def jsToLower (s : String) : String := ⟨s.data.map Char.toLower⟩

/-- JS `String.prototype.endsWith`. -/
def jsEndsWith (s suffix : String) : Bool := suffix.data.isSuffixOf s.data

/-- JS `String.prototype.startsWith`. -/
def jsStartsWith (s p : String) : Bool := p.data.isPrefixOf s.data

/-- `allowedFileTypes` from `config.js:21-24` / `manage.js:36-39`. -/
def allowedFileTypes : List String := ["application/pdf", ".pdf"]

/-- `isFileTypeAllowed` from `config.js:65-79` / `manage.js:425-439`:
accept when the MIME type is in the allow-list, otherwise when the
lowercased file name ends with an allow-list entry that starts with a dot. -/
def isFileTypeAllowed (ftype fname : String) : Bool :=
  if allowedFileTypes.contains ftype then
    true
  else
    let fileName := jsToLower fname
    allowedFileTypes.any fun t =>
      if jsStartsWith t "." then jsEndsWith fileName t else false

/-- One entry of the File Staging Set (`uploadedFiles`).  `isFile` embeds
the JS `instanceof File` test; `isExisting`/`processed` embed the
truthiness of the corresponding properties (absent on raw `File`
objects, hence `false`). -/
structure FileEntry where
  name : String
  size : Nat
  ftype : String
  isFile : Bool
  isExisting : Bool
  processed : Bool
deriving DecidableEq, Repr

/-- A file arriving from the file input / drop event, before any checks. -/
structure DroppedFile where
  name : String
  size : Nat
  ftype : String
deriving DecidableEq, Repr

/-- The entry pushed for an accepted new file: a raw `File` object
(`manage.js:502-504` sets `processed = false` on it; on `config.js` the
property is simply absent, hence also falsy). -/
def toNewEntry (f : DroppedFile) : FileEntry :=
  ⟨f.name, f.size, f.ftype, true, false, false⟩

/-- `removeFile` from `config.js:287-289` / `manage.js:630-632`:
`uploadedFiles = uploadedFiles.filter(file => file.name !== fileName)`. -/
def removeFile (files : List FileEntry) (fileName : String) : List FileEntry :=
  files.filter fun f => f.name != fileName

/-- The `forEach` body of `handleFiles` in `manage.js:490-512`, restricted
to its effect on `uploadedFiles` and the `rejectedFiles` accumulator:
reject when the type check fails, skip silently when an entry with the
same *name* is already in the list, otherwise append as a new entry. -/
def manageAddStep (acc : List FileEntry × List String) (f : DroppedFile) :
    List FileEntry × List String :=
  if !isFileTypeAllowed f.ftype f.name then (acc.1, acc.2 ++ [f.name])
  else if acc.1.any (fun g => g.name == f.name) then acc
  else (acc.1 ++ [toNewEntry f], acc.2)

/-- `handleFiles` from `manage.js:486-518` (set and rejected-list parts). -/
def manageHandleFiles (incoming : List DroppedFile) (uploaded : List FileEntry) :
    List FileEntry × List String :=
  incoming.foldl manageAddStep (uploaded, [])

/-- The `forEach` body of `handleFiles` in `config.js:130-144`: identical
to the manage variant except that the duplicate check compares the *name
and the size* (`f.name === file.name && f.size === file.size`,
`config.js:138`). -/
def configAddStep (acc : List FileEntry × List String) (f : DroppedFile) :
    List FileEntry × List String :=
  if !isFileTypeAllowed f.ftype f.name then (acc.1, acc.2 ++ [f.name])
  else if acc.1.any (fun g => g.name == f.name && g.size == f.size) then acc
  else (acc.1 ++ [toNewEntry f], acc.2)

/-- `handleFiles` from `config.js:126-150` (set and rejected-list parts). -/
def configHandleFiles (incoming : List DroppedFile) (uploaded : List FileEntry) :
    List FileEntry × List String :=
  incoming.foldl configAddStep (uploaded, [])

/-- One user operation on a File Staging Set: a batch of selected/dropped
files handed to `handleFiles`, or a removal of a non-server-known entry
(`removeFile`). -/
inductive StagingOp where
  | addBatch (files : List DroppedFile)
  | remove (name : String)
deriving Repr

/-- Effect of one operation on the manage-page staging set. -/
def manageApplyOp (s : List FileEntry) : StagingOp → List FileEntry
  | .addBatch files => (manageHandleFiles files s).1
  | .remove n => removeFile s n

/-- The manage-page staging set after a sequence of operations, starting
from the empty set. -/
def manageRunOps (ops : List StagingOp) : List FileEntry :=
  ops.foldl manageApplyOp []

/-- Effect of one operation on the create-page staging set. -/
def configApplyOp (s : List FileEntry) : StagingOp → List FileEntry
  | .addBatch files => (configHandleFiles files s).1
  | .remove n => removeFile s n

/-- The create-page staging set after a sequence of operations, starting
from the empty set. -/
def configRunOps (ops : List StagingOp) : List FileEntry :=
  ops.foldl configApplyOp []

/-- The effect of one *accepted* file on `uploadedFiles` alone
(the then-branch of the duplicate check in `manage.js:498-511`). -/
def manageSetStep (s : List FileEntry) (f : DroppedFile) : List FileEntry :=
  if s.any (fun g => g.name == f.name) then s else s ++ [toNewEntry f]

/-- The effect of one *accepted* file on `uploadedFiles` alone
(the then-branch of the duplicate check in `config.js:138-143`). -/
def configSetStep (s : List FileEntry) (f : DroppedFile) : List FileEntry :=
  if s.any (fun g => g.name == f.name && g.size == f.size) then s
  else s ++ [toNewEntry f]

/-- The text of the aggregated rejection notice
(`config.js:148` / `manage.js:516`). -/
def rejectionNotice (rejected : List String) : String :=
  "The following files were not added because they are not supported: " ++
    String.intercalate ", " rejected ++ "\nOnly PDF files are supported."

/-- The `alert`s emitted at the end of `handleFiles`
(`config.js:147-149` / `manage.js:515-517`): one aggregated notice when
some file was rejected, none otherwise. -/
def handleFilesAlerts (rejected : List String) : List String :=
  if rejected.isEmpty then [] else [rejectionNotice rejected]

/-- Network requests issued by the controllers. -/
inductive Request where
  | putAgent (origName newName persona : String)
  | postUpload (agent : String) (fileNames : List String)
  | deleteFile (agent file : String)
  | getAgent (agent : String)
deriving DecidableEq, Repr

/-- Observable events in program order: per-file display-status updates,
network requests, navigations, user notices and the poll-monitor start. -/
inductive Event where
  | setStatus (filename status message : String)
  | req (r : Request)
  | navigate (url : String)
  | notice (msg : String)
  | startMonitor (agent : String)
deriving DecidableEq, Repr

/-- One file as returned by `GET /api/agents/{name}` (`data.files`);
`ftype = ""` models a missing/falsy `type`. -/
structure ServerFile where
  name : String
  size : Nat
  ftype : String
  processed : Bool
  processingStatus : String
deriving DecidableEq, Repr

/-- Body of a successful `GET /api/agents/{name}` response. -/
structure AgentData where
  name : String
  persona : String
  files : List ServerFile
deriving DecidableEq, Repr

/-- The lightweight file object built in `manage.js:393-399` for a
server-known file: `type: file.type || 'application/pdf'`,
`isExisting: true`, `processed: file.processed || false`. -/
def serverFileToEntry (f : ServerFile) : FileEntry :=
  ⟨f.name, f.size, if f.ftype == "" then "application/pdf" else f.ftype,
    false, true, f.processed⟩

/-- Module-scoped mutable state of `manage.js` (first variant) relevant to
change tracking, submission and the remove handler. -/
structure ManageState where
  nameInput : String
  personaInput : String
  originalName : String
  originalPersona : String
  uploadedFiles : List FileEntry
  originalFiles : List FileEntry
  hasChangesFlag : Bool
  justFinishedProcessing : Bool
  filesCurrentlyProcessing : Bool
  buttonText : String
  buttonDisabled : Bool
deriving DecidableEq, Repr

/-- The comparison performed by `checkForChanges` (`manage.js:77-84`):
name differs, or persona differs, or some entry is not `isExisting`, or
the current file count differs from the snapshot's. -/
def hasChangesFn (s : ManageState) : Bool :=
  (s.nameInput != s.originalName) || (s.personaInput != s.originalPersona) ||
    (s.uploadedFiles.any fun f => !f.isExisting) ||
    (s.originalFiles.length != s.uploadedFiles.length)

/-- `checkForChanges` (`manage.js:76-93`): caches the comparison in
`hasChanges` and drives the update button; while
`justFinishedProcessing` the button is force-enabled. -/
def checkForChanges (s : ManageState) : ManageState :=
  let h := hasChangesFn s
  { s with hasChangesFlag := h,
           buttonDisabled := if s.justFinishedProcessing then false else !h }

/-- Page state right after `initManage` (`manage.js:44-60`), before the
agent data arrives. -/
def initialManageState : ManageState :=
  ⟨"", "", "", "", [], [], false, false, false, "Save", true⟩

/-- The success path of `loadAgentData` (`manage.js:375-411`): snapshot
and inputs set from the response, staging set and snapshot rebuilt from
`data.files`, then `checkForChanges`. -/
def loadAgentData (s : ManageState) (data : AgentData) : ManageState :=
  let files := data.files.map serverFileToEntry
  checkForChanges
    { s with
      originalName := data.name, originalPersona := data.persona,
      nameInput := data.name, personaInput := data.persona,
      uploadedFiles := files, originalFiles := files }

/-- An `input` event on the agent-name field (`manage.js:67`):
the new value followed by `checkForChanges`. -/
def editNameState (s : ManageState) (v : String) : ManageState :=
  checkForChanges { s with nameInput := v }

/-- An `input` event on the persona field (`manage.js:70`). -/
def editPersonaState (s : ManageState) (v : String) : ManageState :=
  checkForChanges { s with personaInput := v }

/-- The `forEach` body of `handleFiles` (`manage.js:490-511`) lifted to
the page state: a rejected file only contributes its name to the rejected
list; an accepted duplicate is a no-op; an accepted new file is appended,
the `justFinishedProcessing` flag is cleared and `checkForChanges` runs. -/
def manageAddFileState (s : ManageState) (f : DroppedFile) :
    ManageState × List String :=
  if !isFileTypeAllowed f.ftype f.name then (s, [f.name])
  else if s.uploadedFiles.any fun g => g.name == f.name then (s, [])
  else
    (checkForChanges
      { s with uploadedFiles := s.uploadedFiles ++ [toNewEntry f],
               justFinishedProcessing := false }, [])

/-- Alert text of a failed server-side file deletion (`manage.js:610`). -/
def deleteFailedAlert : String := "Failed to delete file. Please try again."

/-- Outcome of a remove-button click on the manage page. -/
structure RemoveOutcome where
  state : ManageState
  requests : List Request
  alerts : List String
deriving DecidableEq, Repr

/-- Shared tail of the remove handler (`manage.js:599-606` and `613-621`):
drop the entry, re-run `checkForChanges`, and when the set became empty
clear `justFinishedProcessing`. -/
def manageRemoveLocal (s : ManageState) (fileName : String) : ManageState :=
  let s1 := checkForChanges
    { s with uploadedFiles := removeFile s.uploadedFiles fileName }
  if s1.uploadedFiles.isEmpty then { s1 with justFinishedProcessing := false }
  else s1

/-- The remove-button click handler of `manage.js:586-623`: when some
entry with this name has `isExisting`, a `DELETE` for the agent/file pair
is issued first — on success the entry is removed locally, on failure an
alert is shown and nothing is removed; otherwise the entry is removed
with no network call.  `deleteOk` is the result of the `DELETE`. -/
def manageRemoveClick (s : ManageState) (fileName : String) (deleteOk : Bool) :
    RemoveOutcome :=
  match s.uploadedFiles.find? (fun f => f.name == fileName && f.isExisting) with
  | some _ =>
      if deleteOk then
        ⟨manageRemoveLocal s fileName,
          [Request.deleteFile s.originalName fileName], []⟩
      else
        ⟨s, [Request.deleteFile s.originalName fileName], [deleteFailedAlert]⟩
  | none => ⟨manageRemoveLocal s fileName, [], []⟩

/-- Module-scoped mutable state of `config.js` relevant to the remove
handler and the create flow. -/
structure ConfigState where
  uploadedFiles : List FileEntry
  currentAgentName : Option String
  processingComplete : Bool
deriving DecidableEq, Repr

/-- Outcome of a remove-button click on the create page. -/
structure ConfigRemoveOutcome where
  state : ConfigState
  requests : List Request
  alerts : List String
deriving DecidableEq, Repr

/-- The remove-button click handler of `config.js:178-209`: keyed on
`currentAgentName && processingComplete` — not on any `isExisting` flag —
and on that condition a `DELETE` is issued; the entry is removed locally
whether the `DELETE` succeeds or fails (the failure is only logged,
`config.js:198-203`).  `_deleteOk` is the result of the `DELETE` and does
not influence the outcome. -/
def configRemoveClick (s : ConfigState) (fileName : String) (_deleteOk : Bool) :
    ConfigRemoveOutcome :=
  match s.currentAgentName with
  | some agent =>
      if s.processingComplete then
        ⟨{ s with uploadedFiles := removeFile s.uploadedFiles fileName },
          [Request.deleteFile agent fileName], []⟩
      else
        ⟨{ s with uploadedFiles := removeFile s.uploadedFiles fileName }, [], []⟩
  | none =>
      ⟨{ s with uploadedFiles := removeFile s.uploadedFiles fileName }, [], []⟩

/-- Wait notice of `manage.js:654`. -/
def waitAlertMsg : String :=
  "Please wait for all files to finish processing before saving."

/-- Outcome of the synchronous part of the submit handler. -/
structure SubmitOutcome where
  state : ManageState
  requests : List Request
  alerts : List String
  nav : Option String
deriving DecidableEq, Repr

/-- The submit handler of `manage.js:649-686` up to dispatching the `PUT`:
while files are processing the submit is rejected with a wait alert and
nothing else happens; with no changes the page navigates away; otherwise
the button turns into a disabled `Saving...` and the `PUT` is issued. -/
def manageSubmitStart (s : ManageState) : SubmitOutcome :=
  if s.filesCurrentlyProcessing then ⟨s, [], [waitAlertMsg], none⟩
  else if !s.hasChangesFlag && s.justFinishedProcessing then
    ⟨s, [], [], some "/my-agents"⟩
  else if !s.hasChangesFlag then ⟨s, [], [], some "/my-agents"⟩
  else
    ⟨{ s with buttonText := "Saving...", buttonDisabled := true },
      [Request.putAgent s.originalName s.nameInput s.personaInput], [], none⟩

/-- The continuation after the `PUT` resolved without error
(`manage.js:688-776`): snapshots of name/persona are refreshed; the new
files (`instanceof File`) each get their display status set to
`processing` and are carried by one `POST .../upload`; with no new files
the handler either navigates away (after a just-finished processing
session) or shows a success notice and clears the cached flag. -/
def managePutSuccess (s : ManageState) : ManageState × List Event :=
  let s1 := { s with originalName := s.nameInput,
                     originalPersona := s.personaInput }
  let newFiles := s1.uploadedFiles.filter fun f => f.isFile
  if !newFiles.isEmpty then
    ({ s1 with filesCurrentlyProcessing := true,
               buttonText := "Processing Files...", buttonDisabled := true },
      (newFiles.map fun f => Event.setStatus f.name "processing" "Processing...") ++
        [Event.req (Request.postUpload s1.nameInput (newFiles.map FileEntry.name))])
  else
    let s2 := { s1 with filesCurrentlyProcessing := true,
                        buttonText := "Save", buttonDisabled := true }
    if s2.justFinishedProcessing then (s2, [Event.navigate "/my-agents"])
    else ({ s2 with hasChangesFlag := false },
      [Event.notice "Agent updated successfully!"])

/-- The continuation after `POST /api/agents` resolved without error
(`config.js:437-464`): the status monitor starts; every staged file's
display status is set to `processing` and all of them are carried by one
`POST .../upload`; with no staged files the button is enabled as
`Confirm Agent Creation` and a completion notice is shown. -/
def configCreateSuccess (s : ConfigState) (agentName : String) :
    ConfigState × List Event × String × Bool :=
  let s1 := { s with currentAgentName := some agentName,
                     processingComplete := false }
  if !s.uploadedFiles.isEmpty then
    (s1,
      Event.startMonitor agentName ::
        ((s.uploadedFiles.map fun f =>
            Event.setStatus f.name "processing" "Processing...") ++
          [Event.req (Request.postUpload agentName
            (s.uploadedFiles.map FileEntry.name))]),
      "Processing Files...", true)
  else
    (s1,
      [Event.startMonitor agentName,
        Event.notice "All files have been successfully processed!"],
      "Confirm Agent Creation", false)

/-- A `GET .../processing-status` response: `file_status` (absent when the
backend omits it), `processing_complete`, and — for the manage page — the
result of the agent-record re-fetch the completion branch performs. -/
structure StatusResp where
  fileStatuses : Option (List (String × String))
  processingComplete : Bool
  refetchOk : Bool
deriving DecidableEq, Repr

/-- `anyProcessing` of one poll tick (`manage.js:162-164`). -/
def anyProcessingOf (l : List (String × String)) : Bool :=
  l.any fun p => p.2 == "processing" || p.2 == "pending"

/-- Poll-relevant state of a manage-page Processing Session. -/
structure ManagePollState where
  filesCurrentlyProcessing : Bool
  stopped : Bool
deriving DecidableEq, Repr

/-- One tick of `manage.js:136-237`'s `checkProcessingStatus` on a
successful response: with `file_status` present, `filesCurrentlyProcessing`
is replaced by this tick's `anyProcessing`; on the true→false edge with
`processing_complete` the completion branch runs (the returned flag): the
agent record is re-fetched and — when that re-fetch succeeds — the timer
is stopped; a failed re-fetch only logs (`manage.js:228-230`), leaving the
timer running. -/
def manageTick (s : ManagePollState) (r : StatusResp) : ManagePollState × Bool :=
  match r.fileStatuses with
  | none => (s, false)
  | some statuses =>
      let anyP := anyProcessingOf statuses
      let wasP := s.filesCurrentlyProcessing
      let s1 : ManagePollState := { s with filesCurrentlyProcessing := anyP }
      if wasP && !anyP && r.processingComplete then
        if r.refetchOk then ({ s1 with stopped := true }, true) else (s1, true)
      else (s1, false)

/-- Number of completion firings over a manage-page session: the interval
ticks once per response until the timer is stopped. -/
def manageSessionFires (s : ManagePollState) : List StatusResp → Nat
  | [] => 0
  | r :: rs =>
      if s.stopped then 0
      else
        let t := manageTick s r
        (if t.2 then 1 else 0) + manageSessionFires t.1 rs

/-- Fresh manage-page session (`startProcessingStatusMonitor`,
`manage.js:114-120`; `filesCurrentlyProcessing` starts `false`,
`manage.js:31`). -/
def manageSessionStart : ManagePollState := ⟨false, false⟩

/-- Poll-relevant state of a create-page session
(`config.js:27-29`: `processingComplete` latch). -/
structure ConfigPollState where
  processingComplete : Bool
  stopped : Bool
deriving DecidableEq, Repr

/-- One tick of `config.js:320-361`'s `checkProcessingStatus` on a
successful response: level-triggered — on the first tick with
`processing_complete` and an unset latch the button is enabled, the latch
set and the timer stopped.  No `anyProcessing` is computed and no agent
record is re-fetched. -/
def configTick (s : ConfigPollState) (r : StatusResp) : ConfigPollState × Bool :=
  if r.processingComplete && !s.processingComplete then
    (⟨true, true⟩, true)
  else (s, false)

/-- Number of completion firings over a create-page session. -/
def configSessionFires (s : ConfigPollState) : List StatusResp → Nat
  | [] => 0
  | r :: rs =>
      if s.stopped then 0
      else
        let t := configTick s r
        (if t.2 then 1 else 0) + configSessionFires t.1 rs

/-- Fresh create-page session (`startProcessingStatusMonitor`,
`config.js:294-305` resets the latch). -/
def configSessionStart : ConfigPollState := ⟨false, false⟩

/-- One `.file-item` row of the file list's UI projection. -/
structure UIRow where
  filename : String
  statusText : String
  statusColor : String
  statusClass : String
  iconClass : String
deriving DecidableEq, Repr

/-- The `switch(status)` of `updateFileStatus` (`manage.js:303-338`):
text, color and extra class; the default case keeps `message || status`
with the default gray and no extra class. -/
def statusDisplay (status message : String) : String × String × String :=
  if status == "ready" then ("Ready", "#6b7280", "status-pending")
  else if status == "pending" then ("Pending", "#6b7280", "status-pending")
  else if status == "processing" then ("Processing...", "#3b82f6", "status-processing")
  else if status == "success" then ("Processed", "#10b981", "status-success")
  else if status == "error" then ("Error", "#ef4444", "status-error")
  else if status == "unknown" then ("Status Unknown", "#6b7280", "status-pending")
  else (if message == "" then status else message, "#6b7280", "")

/-- Icon classes set by `updateFileStatus` (`manage.js:345-360`). -/
def iconClassFor (status : String) : String :=
  if status == "processing" then "fas file-icon fa-spinner fa-spin"
  else if status == "success" then "fas file-icon fa-check-circle"
  else if status == "error" then "fas file-icon fa-exclamation-circle"
  else "fas file-icon fa-file-pdf"

/-- Effect of `updateFileStatus` on the matched row: the status span and
the icon are rewritten, the file name is untouched. -/
def updateRow (r : UIRow) (status message : String) : UIRow :=
  let d := statusDisplay status message
  { r with
    statusText := d.1, statusColor := d.2.1,
    statusClass := if d.2.2 == "" then "file-status" else "file-status " ++ d.2.2,
    iconClass := iconClassFor status }

/-- `updateFileStatus` (`manage.js:293-361` / `config.js:218-281`):
`document.querySelector` finds the *first* `.file-item` with this
`data-filename`; when none exists the function returns without touching
anything. -/
def updateFileStatusRows (rows : List UIRow) (filename status message : String) :
    List UIRow :=
  match rows with
  | [] => []
  | r :: rest =>
      if r.filename == filename then updateRow r status message :: rest
      else r :: updateFileStatusRows rest filename status message

/-- Page-level view of `setStatus`: the staging set is never touched by
`updateFileStatus`, only the UI projection is. -/
def pageUpdateFileStatus (files : List FileEntry) (rows : List UIRow)
    (filename status message : String) : List FileEntry × List UIRow :=
  (files, updateFileStatusRows rows filename status message)

/-- Whether an event is a network request. -/
def isReqEvent : Event → Bool
  | .req _ => true
  | _ => false

end Zapient

namespace Zapient

/-- C9: for a MIME type outside the allow-list, acceptance is exactly
"the lowercased name ends with `.pdf`"; `DOC.PDF` is accepted under any
MIME type; MIME type `application/pdf` is accepted under any name. -/
theorem C9_isFileTypeAllowed_characterization :
    (∀ ftype fname : String, allowedFileTypes.contains ftype = false →
      (isFileTypeAllowed ftype fname = jsEndsWith (jsToLower fname) ".pdf")) ∧
    (∀ ftype : String, isFileTypeAllowed ftype "DOC.PDF" = true) ∧
    (∀ fname : String, isFileTypeAllowed "application/pdf" fname = true) := by
  have h1 : jsStartsWith "application/pdf" "." = false := by decide
  have h2 : jsStartsWith ".pdf" "." = true := by decide
  refine ⟨?_, ?_, ?_⟩
  · intro ftype fname h
    rw [isFileTypeAllowed, h]
    simp only [Bool.false_eq_true, if_false, allowedFileTypes, List.any_cons,
      List.any_nil, h1, h2, if_true, if_false, Bool.or_false, Bool.false_or]
  · intro ftype
    rw [isFileTypeAllowed]
    by_cases h : allowedFileTypes.contains ftype = true
    · rw [if_pos h]
    · rw [if_neg h]
      decide
  · intro fname
    have hc : allowedFileTypes.contains "application/pdf" = true := by decide
    rw [isFileTypeAllowed, hc]
    simp

/-- Witness for C9 at concrete inputs. -/
theorem C9_isFileTypeAllowed_characterization_witness :
    isFileTypeAllowed "text/plain" "a.txt" = false ∧
    isFileTypeAllowed "text/plain" "DOC.PDF" = true := by
  constructor
  · rw [C9_isFileTypeAllowed_characterization.1 "text/plain" "a.txt" (by decide)]
    decide
  · exact C9_isFileTypeAllowed_characterization.2.1 "text/plain"

/-- C10: `removeFile` deletes exactly the entries carrying the given
name (all of them) and keeps every other entry with all its fields, in
the original relative order (the result is a sublist of the input). -/
theorem C10_removeFile_exact (files : List FileEntry) (n : String) :
    (∀ f ∈ removeFile files n, f.name ≠ n) ∧
    (removeFile files n).Sublist files ∧
    (∀ f ∈ files, f.name ≠ n → f ∈ removeFile files n) := by
  refine ⟨?_, List.filter_sublist files, ?_⟩
  · intro f hf
    have := (List.mem_filter.mp hf).2
    simpa using this
  · intro f hf h
    exact List.mem_filter.mpr ⟨hf, by simpa using h⟩

/-- A sample entry already known to the server. -/
def sampleExisting : FileEntry := ⟨"a.pdf", 1, "application/pdf", false, true, true⟩

/-- A sample locally-added entry. -/
def sampleNew : FileEntry := ⟨"b.pdf", 2, "application/pdf", true, false, false⟩

/-- Witness for C10: removing `a.pdf` keeps the entry named `b.pdf`. -/
theorem C10_removeFile_exact_witness :
    sampleNew ∈ removeFile [sampleExisting, sampleNew] "a.pdf" :=
  (C10_removeFile_exact [sampleExisting, sampleNew] "a.pdf").2.2 sampleNew
    (by decide) (by decide)

/-- One `manage.js` add step preserves name uniqueness: the appended
entry's name passed the `uploadedFiles.some(f => f.name === file.name)`
guard. -/
lemma manageAddStep_names_nodup (acc : List FileEntry × List String)
    (f : DroppedFile) (h : (acc.1.map FileEntry.name).Nodup) :
    (((manageAddStep acc f).1).map FileEntry.name).Nodup := by
  unfold manageAddStep
  split
  · exact h
  · split
    · exact h
    · rename_i hdup
      simp only [List.map_append, List.map_cons, List.map_nil]
      rw [List.nodup_append]
      refine ⟨h, List.nodup_singleton _, ?_⟩
      intro a ha hb
      rw [List.mem_singleton] at hb
      rcases List.mem_map.mp ha with ⟨g, hg, hgname⟩
      apply hdup
      refine List.any_eq_true.mpr ⟨g, hg, ?_⟩
      have : g.name = f.name := by rw [hgname, hb]; rfl
      simp [this]

/-- One `config.js` add step preserves (name, size) uniqueness: the
appended entry passed the `f.name === file.name && f.size === file.size`
guard. -/
lemma configAddStep_keys_nodup (acc : List FileEntry × List String)
    (f : DroppedFile)
    (h : (acc.1.map fun g => (g.name, g.size)).Nodup) :
    (((configAddStep acc f).1).map fun g => (g.name, g.size)).Nodup := by
  unfold configAddStep
  split
  · exact h
  · split
    · exact h
    · rename_i hdup
      simp only [List.map_append, List.map_cons, List.map_nil]
      rw [List.nodup_append]
      refine ⟨h, List.nodup_singleton _, ?_⟩
      intro a ha hb
      rw [List.mem_singleton] at hb
      rcases List.mem_map.mp ha with ⟨g, hg, hgkey⟩
      apply hdup
      refine List.any_eq_true.mpr ⟨g, hg, ?_⟩
      have hk : (g.name, g.size) = (f.name, f.size) := by rw [hgkey, hb]; rfl
      have h1 : g.name = f.name := congrArg Prod.fst hk
      have h2 : g.size = f.size := congrArg Prod.snd hk
      simp [h1, h2]

/-- `handleFiles` (manage variant) preserves name uniqueness of the set. -/
lemma manageHandleFiles_fold_nodup (incoming : List DroppedFile) :
    ∀ acc : List FileEntry × List String, (acc.1.map FileEntry.name).Nodup →
      ((incoming.foldl manageAddStep acc).1.map FileEntry.name).Nodup := by
  induction incoming with
  | nil => intro acc h; exact h
  | cons f rest ih =>
      intro acc h
      simp only [List.foldl_cons]
      exact ih _ (manageAddStep_names_nodup acc f h)

/-- `handleFiles` (config variant) preserves (name, size) uniqueness. -/
lemma configHandleFiles_fold_nodup (incoming : List DroppedFile) :
    ∀ acc : List FileEntry × List String,
      (acc.1.map fun g => (g.name, g.size)).Nodup →
      ((incoming.foldl configAddStep acc).1.map fun g => (g.name, g.size)).Nodup := by
  induction incoming with
  | nil => intro acc h; exact h
  | cons f rest ih =>
      intro acc h
      simp only [List.foldl_cons]
      exact ih _ (configAddStep_keys_nodup acc f h)

/-- Removal (a `filter`) preserves uniqueness of any key. -/
lemma removeFile_keys_nodup {α : Type} (k : FileEntry → α)
    (s : List FileEntry) (n : String) (h : (s.map k).Nodup) :
    ((removeFile s n).map k).Nodup :=
  List.Nodup.sublist (List.Sublist.map k (List.filter_sublist s)) h

/-- C1 (amended): starting from the empty set, every `add`/`remove`
sequence keeps the manage-page staging set free of duplicate *names*; on
the create page (`config.js`) only the *(name, size)* pair is kept
unique, because its duplicate guard compares name and size. -/
theorem C1_staging_set_uniqueness :
    (∀ ops : List StagingOp, ((manageRunOps ops).map FileEntry.name).Nodup) ∧
    (∀ ops : List StagingOp,
      ((configRunOps ops).map fun f => (f.name, f.size)).Nodup) := by
  constructor
  · intro ops
    have general : ∀ (ops : List StagingOp) (s : List FileEntry),
        (s.map FileEntry.name).Nodup →
        ((ops.foldl manageApplyOp s).map FileEntry.name).Nodup := by
      intro ops
      induction ops with
      | nil => intro s h; exact h
      | cons op rest ih =>
          intro s h
          simp only [List.foldl_cons]
          apply ih
          cases op with
          | addBatch files => exact manageHandleFiles_fold_nodup files (s, []) h
          | remove n => exact removeFile_keys_nodup FileEntry.name s n h
    exact general ops [] (by simp)
  · intro ops
    have general : ∀ (ops : List StagingOp) (s : List FileEntry),
        (s.map fun f => (f.name, f.size)).Nodup →
        ((ops.foldl configApplyOp s).map fun f => (f.name, f.size)).Nodup := by
      intro ops
      induction ops with
      | nil => intro s h; exact h
      | cons op rest ih =>
          intro s h
          simp only [List.foldl_cons]
          apply ih
          cases op with
          | addBatch files => exact configHandleFiles_fold_nodup files (s, []) h
          | remove n => exact removeFile_keys_nodup (fun f => (f.name, f.size)) s n h
    exact general ops [] (by simp)

/-- The rejected-list component of the manage `handleFiles` fold: exactly
the names of the files failing the type check, in batch order. -/
lemma manage_fold_rejected (incoming : List DroppedFile) :
    ∀ acc : List FileEntry × List String,
      (incoming.foldl manageAddStep acc).2 =
      acc.2 ++ (incoming.filter fun f => !isFileTypeAllowed f.ftype f.name).map
        DroppedFile.name := by
  induction incoming with
  | nil => intro acc; simp
  | cons f rest ih =>
      intro acc
      by_cases hall : isFileTypeAllowed f.ftype f.name = true
      · have hstep2 : (manageAddStep acc f).2 = acc.2 := by
          unfold manageAddStep
          simp only [hall, Bool.not_true]
          simp only [Bool.false_eq_true, if_false]
          split <;> rfl
        simp only [List.foldl_cons]
        rw [ih, hstep2]
        simp [List.filter_cons, hall]
      · rw [Bool.not_eq_true] at hall
        have hstep : manageAddStep acc f = (acc.1, acc.2 ++ [f.name]) := by
          unfold manageAddStep
          simp [hall]
        simp only [List.foldl_cons, hstep]
        rw [ih]
        simp [List.filter_cons, hall]

/-- The rejected-list component of the config `handleFiles` fold. -/
lemma config_fold_rejected (incoming : List DroppedFile) :
    ∀ acc : List FileEntry × List String,
      (incoming.foldl configAddStep acc).2 =
      acc.2 ++ (incoming.filter fun f => !isFileTypeAllowed f.ftype f.name).map
        DroppedFile.name := by
  induction incoming with
  | nil => intro acc; simp
  | cons f rest ih =>
      intro acc
      by_cases hall : isFileTypeAllowed f.ftype f.name = true
      · have hstep2 : (configAddStep acc f).2 = acc.2 := by
          unfold configAddStep
          simp only [hall, Bool.not_true]
          simp only [Bool.false_eq_true, if_false]
          split <;> rfl
        simp only [List.foldl_cons]
        rw [ih, hstep2]
        simp [List.filter_cons, hall]
      · rw [Bool.not_eq_true] at hall
        have hstep : configAddStep acc f = (acc.1, acc.2 ++ [f.name]) := by
          unfold configAddStep
          simp [hall]
        simp only [List.foldl_cons, hstep]
        rw [ih]
        simp [List.filter_cons, hall]

/-- The set component of the manage `handleFiles` fold only depends on the
files that pass the type check. -/
lemma manage_fold_set (incoming : List DroppedFile) :
    ∀ acc : List FileEntry × List String,
      (incoming.foldl manageAddStep acc).1 =
      (incoming.filter fun f => isFileTypeAllowed f.ftype f.name).foldl
        manageSetStep acc.1 := by
  induction incoming with
  | nil => intro acc; simp
  | cons f rest ih =>
      intro acc
      by_cases hall : isFileTypeAllowed f.ftype f.name = true
      · have hstep1 : (manageAddStep acc f).1 = manageSetStep acc.1 f := by
          unfold manageAddStep manageSetStep
          simp only [hall, Bool.not_true]
          simp only [Bool.false_eq_true, if_false]
          split <;> simp_all
        simp only [List.foldl_cons]
        rw [ih]
        simp [List.filter_cons, hall, hstep1]
      · rw [Bool.not_eq_true] at hall
        have hstep1 : (manageAddStep acc f).1 = acc.1 := by
          unfold manageAddStep
          simp [hall]
        simp only [List.foldl_cons]
        rw [ih]
        simp [List.filter_cons, hall, hstep1]

/-- The set component of the config `handleFiles` fold only depends on the
files that pass the type check. -/
lemma config_fold_set (incoming : List DroppedFile) :
    ∀ acc : List FileEntry × List String,
      (incoming.foldl configAddStep acc).1 =
      (incoming.filter fun f => isFileTypeAllowed f.ftype f.name).foldl
        configSetStep acc.1 := by
  induction incoming with
  | nil => intro acc; simp
  | cons f rest ih =>
      intro acc
      by_cases hall : isFileTypeAllowed f.ftype f.name = true
      · have hstep1 : (configAddStep acc f).1 = configSetStep acc.1 f := by
          unfold configAddStep configSetStep
          simp only [hall, Bool.not_true]
          simp only [Bool.false_eq_true, if_false]
          split <;> simp_all
        simp only [List.foldl_cons]
        rw [ih]
        simp [List.filter_cons, hall, hstep1]
      · rw [Bool.not_eq_true] at hall
        have hstep1 : (configAddStep acc f).1 = acc.1 := by
          unfold configAddStep
          simp [hall]
        simp only [List.foldl_cons]
        rw [ih]
        simp [List.filter_cons, hall, hstep1]

/-- C4: a file failing both the MIME and the extension check never
mutates the staging set (the resulting set is the one computed from the
accepted files only, in both variants), its name is recorded in the
rejected list, and the rejected names of a batch surface as one single
aggregated notice — never one notice per file. -/
theorem C4_batch_rejection_aggregated :
    (∀ (inc : List DroppedFile) (up : List FileEntry),
      (manageHandleFiles inc up).1 =
        (inc.filter fun f => isFileTypeAllowed f.ftype f.name).foldl
          manageSetStep up ∧
      (manageHandleFiles inc up).2 =
        (inc.filter fun f => !isFileTypeAllowed f.ftype f.name).map
          DroppedFile.name) ∧
    (∀ (inc : List DroppedFile) (up : List FileEntry),
      (configHandleFiles inc up).1 =
        (inc.filter fun f => isFileTypeAllowed f.ftype f.name).foldl
          configSetStep up ∧
      (configHandleFiles inc up).2 =
        (inc.filter fun f => !isFileTypeAllowed f.ftype f.name).map
          DroppedFile.name) ∧
    (∀ (inc : List DroppedFile) (up : List FileEntry) (f : DroppedFile),
      f ∈ inc → isFileTypeAllowed f.ftype f.name = false →
        f.name ∈ (manageHandleFiles inc up).2 ∧
        handleFilesAlerts (manageHandleFiles inc up).2 =
          [rejectionNotice (manageHandleFiles inc up).2]) ∧
    (∀ rejected : List String, (handleFilesAlerts rejected).length ≤ 1) := by
  refine ⟨?_, ?_, ?_, ?_⟩
  · intro inc up
    exact ⟨manage_fold_set inc (up, []), by
      have h := manage_fold_rejected inc (up, [])
      simpa using h⟩
  · intro inc up
    exact ⟨config_fold_set inc (up, []), by
      have h := config_fold_rejected inc (up, [])
      simpa using h⟩
  · intro inc up f hmem hrej
    have hr : (manageHandleFiles inc up).2 =
        (inc.filter fun f => !isFileTypeAllowed f.ftype f.name).map
          DroppedFile.name := by
      have h := manage_fold_rejected inc (up, [])
      simpa using h
    have hfmem : f.name ∈ (manageHandleFiles inc up).2 := by
      rw [hr]
      exact List.mem_map_of_mem DroppedFile.name
        (List.mem_filter.mpr ⟨hmem, by simp [hrej]⟩)
    refine ⟨hfmem, ?_⟩
    unfold handleFilesAlerts
    rw [if_neg]
    simp only [List.isEmpty_iff, ne_eq]
    intro hempty
    rw [hempty] at hfmem
    exact (List.not_mem_nil _ hfmem)
  · intro rejected
    unfold handleFilesAlerts
    split <;> simp

/-- Witness for C4: a batch containing `a.txt` (wrong MIME type and wrong
extension) and `b.pdf` leaves `a.txt` out of the set, reports it in the
single aggregated notice, and adds only `b.pdf`. -/
theorem C4_batch_rejection_aggregated_witness :
    "a.txt" ∈ (manageHandleFiles
        [⟨"a.txt", 3, "text/plain"⟩, ⟨"b.pdf", 4, "application/pdf"⟩] []).2 ∧
    handleFilesAlerts (manageHandleFiles
        [⟨"a.txt", 3, "text/plain"⟩, ⟨"b.pdf", 4, "application/pdf"⟩] []).2 =
      [rejectionNotice (manageHandleFiles
        [⟨"a.txt", 3, "text/plain"⟩, ⟨"b.pdf", 4, "application/pdf"⟩] []).2] :=
  C4_batch_rejection_aggregated.2.2.1
    [⟨"a.txt", 3, "text/plain"⟩, ⟨"b.pdf", 4, "application/pdf"⟩] []
    ⟨"a.txt", 3, "text/plain"⟩ (by decide) (by decide)

/-- C6: a submit while `filesCurrentlyProcessing` is rejected locally:
no request of any kind, the state untouched, one wait alert. -/
theorem C6_submit_rejected_while_processing (s : ManageState)
    (h : s.filesCurrentlyProcessing = true) :
    manageSubmitStart s = ⟨s, [], [waitAlertMsg], none⟩ := by
  unfold manageSubmitStart
  rw [h]
  simp

/-- A manage-page state with a file upload still processing. -/
def processingManageState : ManageState :=
  { initialManageState with filesCurrentlyProcessing := true }

/-- Witness for C6. -/
theorem C6_submit_rejected_while_processing_witness :
    manageSubmitStart processingManageState =
      ⟨processingManageState, [], [waitAlertMsg], none⟩ :=
  C6_submit_rejected_while_processing processingManageState rfl

/-- Status-update events carry no request. -/
lemma filter_isReqEvent_setStatusMap (l : List FileEntry) :
    ((l.map fun f => Event.setStatus f.name "processing" "Processing...").filter
      isReqEvent) = [] := by
  induction l with
  | nil => rfl
  | cons a t ih => simp [isReqEvent, ih]

/-- C7: when a save triggers uploads, the sequence of observable actions
is: one `processing` display update per not-yet-uploaded entry, followed
by exactly one `POST .../upload` carrying precisely those entries'
names — so every submitted file shows `processing` before the request is
even dispatched, let alone resolved.  Same for the create page, where all
staged entries are new. -/
theorem C7_single_upload_post :
    (∀ s : ManageState,
      (∀ f ∈ s.uploadedFiles, f.isFile = !f.isExisting) →
      (s.uploadedFiles.filter fun f => !f.isExisting) ≠ [] →
      (managePutSuccess s).2 =
        ((s.uploadedFiles.filter fun f => !f.isExisting).map fun f =>
            Event.setStatus f.name "processing" "Processing...") ++
          [Event.req (Request.postUpload s.nameInput
            ((s.uploadedFiles.filter fun f => !f.isExisting).map FileEntry.name))] ∧
      ((managePutSuccess s).2.filter isReqEvent) =
        [Event.req (Request.postUpload s.nameInput
          ((s.uploadedFiles.filter fun f => !f.isExisting).map FileEntry.name))]) ∧
    (∀ (cs : ConfigState) (agent : String),
      cs.uploadedFiles ≠ [] →
      (configCreateSuccess cs agent).2.1 =
        Event.startMonitor agent ::
          ((cs.uploadedFiles.map fun f =>
              Event.setStatus f.name "processing" "Processing...") ++
            [Event.req (Request.postUpload agent
              (cs.uploadedFiles.map FileEntry.name))]) ∧
      ((configCreateSuccess cs agent).2.1.filter isReqEvent) =
        [Event.req (Request.postUpload agent
          (cs.uploadedFiles.map FileEntry.name))]) := by
  constructor
  · intro s hinv hne
    have hfilter : (s.uploadedFiles.filter fun f => f.isFile) =
        (s.uploadedFiles.filter fun f => !f.isExisting) := by
      apply List.filter_congr
      intro f hf
      rw [hinv f hf]
    have hempty : ((s.uploadedFiles.filter fun f => !f.isExisting).isEmpty) = false := by
      cases hc : (s.uploadedFiles.filter fun f => !f.isExisting) with
      | nil => exact absurd hc hne
      | cons a t => rfl
    have hev : (managePutSuccess s).2 =
        ((s.uploadedFiles.filter fun f => !f.isExisting).map fun f =>
            Event.setStatus f.name "processing" "Processing...") ++
          [Event.req (Request.postUpload s.nameInput
            ((s.uploadedFiles.filter fun f => !f.isExisting).map FileEntry.name))] := by
      unfold managePutSuccess
      simp only [hfilter, hempty, Bool.not_false, if_true]
    refine ⟨hev, ?_⟩
    rw [hev, List.filter_append, filter_isReqEvent_setStatusMap]
    simp [isReqEvent]
  · intro cs agent hne
    have hempty : cs.uploadedFiles.isEmpty = false := by
      cases hc : cs.uploadedFiles with
      | nil => exact absurd hc hne
      | cons a t => rfl
    have hev : (configCreateSuccess cs agent).2.1 =
        Event.startMonitor agent ::
          ((cs.uploadedFiles.map fun f =>
              Event.setStatus f.name "processing" "Processing...") ++
            [Event.req (Request.postUpload agent
              (cs.uploadedFiles.map FileEntry.name))]) := by
      unfold configCreateSuccess
      simp only [hempty, Bool.not_false, if_true]
    refine ⟨hev, ?_⟩
    rw [hev]
    simp only [List.filter_cons, List.filter_append, filter_isReqEvent_setStatusMap]
    simp [isReqEvent]

/-- A manage-page state holding one server-known and one new entry. -/
def mixedManageState : ManageState :=
  { initialManageState with
    nameInput := "Bot", originalName := "Bot",
    uploadedFiles := [sampleExisting, sampleNew],
    originalFiles := [sampleExisting], hasChangesFlag := true }

/-- The staging set is untouched by `manageRemoveLocal` except for the
filtered `uploadedFiles`. -/
lemma manageRemoveLocal_files (s : ManageState) (n : String) :
    (manageRemoveLocal s n).uploadedFiles = removeFile s.uploadedFiles n := by
  unfold manageRemoveLocal
  dsimp only
  split <;> simp [checkForChanges]

/-- C2 (amended): on the manage page, removing an entry whose name is
only held by a non-`isExisting` entry issues no request and drops the
entry at once; removing an `isExisting` entry always issues the `DELETE`
first, and a failed `DELETE` alerts and leaves the whole state — the
entry included — untouched.  On the create page the handler is instead
keyed on `currentAgentName && processingComplete`: under that condition a
`DELETE` is issued for any entry, and the entry is dropped locally whether
or not the `DELETE` succeeds. -/
theorem C2_remove_network_discipline :
    (∀ (s : ManageState) (n : String) (dk : Bool) (e : FileEntry),
      (s.uploadedFiles.map FileEntry.name).Nodup →
      e ∈ s.uploadedFiles → e.name = n → e.isExisting = false →
      manageRemoveClick s n dk = ⟨manageRemoveLocal s n, [], []⟩ ∧
      e ∉ (manageRemoveClick s n dk).state.uploadedFiles) ∧
    (∀ (s : ManageState) (n : String) (dk : Bool) (e : FileEntry),
      e ∈ s.uploadedFiles → e.name = n → e.isExisting = true →
      (manageRemoveClick s n dk).requests =
        [Request.deleteFile s.originalName n] ∧
      (dk = false →
        manageRemoveClick s n dk =
          ⟨s, [Request.deleteFile s.originalName n], [deleteFailedAlert]⟩)) ∧
    (∀ (cs : ConfigState) (n : String) (dk : Bool) (agent : String),
      cs.currentAgentName = some agent → cs.processingComplete = true →
      configRemoveClick cs n dk =
        ⟨{ cs with uploadedFiles := removeFile cs.uploadedFiles n },
          [Request.deleteFile agent n], []⟩) := by
  refine ⟨?_, ?_, ?_⟩
  · intro s n dk e hnd he hen hee
    have hfind : s.uploadedFiles.find?
        (fun f => f.name == n && f.isExisting) = none := by
      rw [List.find?_eq_none]
      intro x hx
      simp only [Bool.and_eq_true, beq_iff_eq, not_and]
      intro hxn
      have hxe : x = e :=
        List.inj_on_of_nodup_map hnd hx he (by rw [hxn, hen])
      rw [hxe, hee]
      simp
    have heq : manageRemoveClick s n dk = ⟨manageRemoveLocal s n, [], []⟩ := by
      unfold manageRemoveClick
      rw [hfind]
    refine ⟨heq, ?_⟩
    rw [heq]
    simp only [manageRemoveLocal_files]
    intro hmem
    have := (List.mem_filter.mp hmem).2
    rw [hen] at this
    simp at this
  · intro s n dk e he hen hee
    have hfind : (s.uploadedFiles.find?
        (fun f => f.name == n && f.isExisting)).isSome = true := by
      rw [List.find?_isSome]
      exact ⟨e, he, by rw [hen, hee]; simp⟩
    rcases Option.isSome_iff_exists.mp hfind with ⟨y, hy⟩
    constructor
    · unfold manageRemoveClick
      rw [hy]
      cases dk <;> rfl
    · intro hdk
      unfold manageRemoveClick
      rw [hy, hdk]
      rfl
  · intro cs n dk agent hagent hpc
    unfold configRemoveClick
    rw [hagent, hpc]
    rfl

/-- A create-page staging set holding one locally-added file, after agent
creation and processing completion. -/
def c2ConfigState : ConfigState :=
  ⟨[⟨"a.pdf", 5, "application/pdf", true, false, false⟩], some "Bot", true⟩

/-- Counterexample for C2 as stated: on the create page, the only staged
entry has `isExisting = false` (it is a raw `File` object), yet its
removal issues a `DELETE`, and even though that `DELETE` fails the entry
is gone from the set. -/
theorem C2_counterexample_config_remove :
    (∀ f ∈ c2ConfigState.uploadedFiles, f.isExisting = false) ∧
    (configRemoveClick c2ConfigState "a.pdf" false).requests ≠ [] ∧
    (configRemoveClick c2ConfigState "a.pdf" false).state.uploadedFiles = [] := by
  decide

/-- Witness for C2: removing the new entry `b.pdf` from a mixed set
issues nothing; removing the existing `a.pdf` with a failing `DELETE`
alerts and keeps the state. -/
theorem C2_remove_network_discipline_witness :
    manageRemoveClick mixedManageState "b.pdf" true =
      ⟨manageRemoveLocal mixedManageState "b.pdf", [], []⟩ ∧
    manageRemoveClick mixedManageState "a.pdf" false =
      ⟨mixedManageState, [Request.deleteFile "Bot" "a.pdf"],
        [deleteFailedAlert]⟩ := by
  constructor
  · exact (C2_remove_network_discipline.1 mixedManageState "b.pdf" true sampleNew
      (by decide) (by decide) (by decide) (by decide)).1
  · exact (C2_remove_network_discipline.2.1 mixedManageState "a.pdf" false
      sampleExisting (by decide) (by decide) (by decide)).2 rfl

/-- Witness for C7: the save submits exactly `b.pdf`, marked processing
first. -/
theorem C7_single_upload_post_witness :
    (managePutSuccess mixedManageState).2 =
      [Event.setStatus "b.pdf" "processing" "Processing...",
        Event.req (Request.postUpload "Bot" ["b.pdf"])] := by
  have h := (C7_single_upload_post.1 mixedManageState (by decide) (by decide)).1
  rw [h]
  decide

/-- A stopped session never fires again (the interval is cleared). -/
lemma manageSessionFires_stopped (rs : List StatusResp) (s : ManagePollState)
    (h : s.stopped = true) : manageSessionFires s rs = 0 := by
  cases rs with
  | nil => rfl
  | cons r rest =>
      unfold manageSessionFires
      rw [h]
      simp

/-- A fired tick whose agent re-fetch succeeded stops the timer. -/
lemma manageTick_fired_stopped (s : ManagePollState) (r : StatusResp)
    (hf : (manageTick s r).2 = true) (hro : r.refetchOk = true) :
    (manageTick s r).1.stopped = true := by
  obtain ⟨wasP, st⟩ := s
  obtain ⟨fs, pc, ro⟩ := r
  cases fs with
  | none => simp [manageTick] at hf
  | some sts =>
      cases wasP <;> cases pc <;> cases ro <;> cases hb : anyProcessingOf sts <;>
        simp_all [manageTick]

/-- Characterization of a firing tick on the manage page: exactly the
edge condition of `manage.js:172`. -/
lemma manageTick_fired_iff (s : ManagePollState) (r : StatusResp) :
    (manageTick s r).2 = true ↔
      s.filesCurrentlyProcessing = true ∧ r.processingComplete = true ∧
      ∃ sts, r.fileStatuses = some sts ∧ anyProcessingOf sts = false := by
  obtain ⟨wasP, st⟩ := s
  obtain ⟨fs, pc, ro⟩ := r
  cases fs with
  | none => simp [manageTick]
  | some sts =>
      cases wasP <;> cases pc <;> cases ro <;> cases hb : anyProcessingOf sts <;>
        simp_all [manageTick]

/-- Over a whole session all of whose agent re-fetches succeed, the
completion branch runs at most once. -/
lemma manageSessionFires_le_one (rs : List StatusResp) :
    ∀ s : ManagePollState, (∀ r ∈ rs, r.refetchOk = true) →
      manageSessionFires s rs ≤ 1 := by
  induction rs with
  | nil => intro s _; exact Nat.zero_le 1
  | cons r rest ih =>
      intro s h
      unfold manageSessionFires
      cases hst : s.stopped with
      | true => simp
      | false =>
          simp only [Bool.false_eq_true, if_false]
          cases hf : (manageTick s r).2 with
          | true =>
              have hro : r.refetchOk = true := h r (List.mem_cons_self r rest)
              have hstop := manageTick_fired_stopped s r hf hro
              rw [manageSessionFires_stopped rest _ hstop]
              simp
          | false =>
              simp only [Bool.false_eq_true, if_false, Nat.zero_add]
              exact ih _ (fun x hx => h x (List.mem_cons_of_mem r hx))

/-- A stopped create-page session never fires again. -/
lemma configSessionFires_stopped (rs : List StatusResp) (s : ConfigPollState)
    (h : s.stopped = true) : configSessionFires s rs = 0 := by
  cases rs with
  | nil => rfl
  | cons r rest =>
      unfold configSessionFires
      rw [h]
      simp

/-- Characterization of a firing tick on the create page: level-triggered
on `processing_complete` with the `processingComplete` latch unset —
independent of any per-file status. -/
lemma configTick_fired_iff (s : ConfigPollState) (r : StatusResp) :
    (configTick s r).2 = true ↔
      r.processingComplete = true ∧ s.processingComplete = false := by
  obtain ⟨latch, st⟩ := s
  obtain ⟨fs, pc, ro⟩ := r
  cases pc <;> cases latch <;> simp_all [configTick]

/-- A fired create-page tick stops the timer. -/
lemma configTick_fired_stopped (s : ConfigPollState) (r : StatusResp)
    (hf : (configTick s r).2 = true) : (configTick s r).1.stopped = true := by
  obtain ⟨latch, st⟩ := s
  obtain ⟨fs, pc, ro⟩ := r
  cases pc <;> cases latch <;> simp_all [configTick]

/-- The create-page session also fires at most once (latch plus stop). -/
lemma configSessionFires_le_one (rs : List StatusResp) :
    ∀ s : ConfigPollState, configSessionFires s rs ≤ 1 := by
  induction rs with
  | nil => intro s; simp [configSessionFires]
  | cons r rest ih =>
      intro s
      unfold configSessionFires
      cases hst : s.stopped with
      | true => simp
      | false =>
          simp only [Bool.false_eq_true, if_false]
          cases hf : (configTick s r).2 with
          | true =>
              have hstop : (configTick s r).1.stopped = true :=
                configTick_fired_stopped s r hf
              rw [configSessionFires_stopped rest _ hstop]
              simp
          | false =>
              simp only [Bool.false_eq_true, if_false, Nat.zero_add]
              exact ih _

/-- C3 (amended): on the manage page a tick runs the completion branch
exactly when the previous tick's `anyProcessing` was `true`, this tick's
is `false`, `file_status` is present and `processing_complete` is set;
when its agent re-fetch succeeds the timer stops and no later tick of the
session fires, so a session whose re-fetches succeed fires at most once.
On the create page completion is instead level-triggered on
`processing_complete` under a latch (at most once, but with no
`anyProcessing` edge and no agent re-fetch). -/
theorem C3_completion_edge_triggered_once :
    (∀ (s : ManagePollState) (r : StatusResp),
      (manageTick s r).2 = true ↔
        s.filesCurrentlyProcessing = true ∧ r.processingComplete = true ∧
        ∃ sts, r.fileStatuses = some sts ∧ anyProcessingOf sts = false) ∧
    (∀ (s : ManagePollState) (r : StatusResp),
      (manageTick s r).2 = true → r.refetchOk = true →
      (manageTick s r).1.stopped = true) ∧
    (∀ (rs : List StatusResp) (s : ManagePollState), s.stopped = true →
      manageSessionFires s rs = 0) ∧
    (∀ rs : List StatusResp, (∀ r ∈ rs, r.refetchOk = true) →
      manageSessionFires manageSessionStart rs ≤ 1) ∧
    (∀ (s : ConfigPollState) (r : StatusResp),
      (configTick s r).2 = true ↔
        r.processingComplete = true ∧ s.processingComplete = false) ∧
    (∀ rs : List StatusResp, configSessionFires configSessionStart rs ≤ 1) :=
  ⟨manageTick_fired_iff, manageTick_fired_stopped,
    fun rs s h => manageSessionFires_stopped rs s h,
    fun rs h => manageSessionFires_le_one rs manageSessionStart h,
    configTick_fired_iff,
    fun rs => configSessionFires_le_one rs configSessionStart⟩

/-- Witness for C3: a session that sees `a.pdf` processing and then an
empty completed response fires exactly once, hence at most once. -/
theorem C3_completion_edge_triggered_once_witness :
    manageSessionFires manageSessionStart
      [⟨some [("a.pdf", "processing")], false, true⟩,
        ⟨some [], true, true⟩] ≤ 1 :=
  C3_completion_edge_triggered_once.2.2.2.1
    [⟨some [("a.pdf", "processing")], false, true⟩, ⟨some [], true, true⟩]
    (by decide)

/-- Counterexample for C3 as stated: the claim covers
`config.js:320-361` too, but there the completion actions run on the very
first tick of a fresh session when the response says
`processing_complete`, although no previous tick had `anyProcessing =
true` (indeed this tick's own `anyProcessing` over the empty `file_status`
is `false` and no tick preceded it) — so completion is not gated on a
true→false `anyProcessing` transition; the create page also never
re-fetches the agent record in its completion branch. -/
theorem C3_counterexample_config_level_triggered :
    configSessionFires configSessionStart [⟨some [], true, true⟩] = 1 ∧
    anyProcessingOf [] = false := by
  decide

/-- `checkForChanges` only caches: the comparison itself is unchanged. -/
lemma hasChangesFn_checkForChanges (s : ManageState) :
    hasChangesFn (checkForChanges s) = hasChangesFn s := by
  simp [checkForChanges, hasChangesFn]

/-- Server-loaded entries are all `isExisting`. -/
lemma any_notExisting_serverFiles (l : List ServerFile) :
    ((l.map serverFileToEntry).any fun f => !f.isExisting) = false := by
  induction l with
  | nil => rfl
  | cons a t ih => simp [serverFileToEntry, ih]

/-- `hasChangesFn` after the local part of a remove: name and persona
untouched, so only the file comparison against the stale snapshot
remains. -/
lemma hasChangesFn_removeLocal (s : ManageState) (n : String)
    (hname : s.nameInput = s.originalName)
    (hpersona : s.personaInput = s.originalPersona) :
    hasChangesFn (manageRemoveLocal s n) =
      (((removeFile s.uploadedFiles n).any fun f => !f.isExisting) ||
        (s.originalFiles.length != (removeFile s.uploadedFiles n).length)) := by
  unfold manageRemoveLocal
  dsimp only
  split <;> simp [checkForChanges, hasChangesFn, hname, hpersona]

/-- C5 (amended): `hasChangesFn` — the §4.4 comparison — is false right
after `loadAgentData`; after a successful save with no new files it
equals the file-count comparison against the *unrefreshed* snapshot
(false only when no entry was removed since the snapshot was taken); it
is true after a name or persona edit to a different value and after any
accepted file add; after a file remove it equals whether the remaining
set still differs from the snapshot (an entry with `isExisting = false`
or a different count). -/
theorem C5_hasChanges_lifecycle :
    (∀ (s : ManageState) (d : AgentData),
      hasChangesFn (loadAgentData s d) = false) ∧
    (∀ s : ManageState,
      (∀ f ∈ s.uploadedFiles, f.isFile = !f.isExisting) →
      (s.uploadedFiles.filter fun f => f.isFile) = [] →
      hasChangesFn (managePutSuccess s).1 =
        (s.originalFiles.length != s.uploadedFiles.length)) ∧
    (∀ (s : ManageState) (v : String), v ≠ s.originalName →
      hasChangesFn (editNameState s v) = true) ∧
    (∀ (s : ManageState) (v : String), v ≠ s.originalPersona →
      hasChangesFn (editPersonaState s v) = true) ∧
    (∀ (s : ManageState) (f : DroppedFile),
      isFileTypeAllowed f.ftype f.name = true →
      (s.uploadedFiles.any fun g => g.name == f.name) = false →
      hasChangesFn (manageAddFileState s f).1 = true) ∧
    (∀ (s : ManageState) (n : String),
      s.nameInput = s.originalName → s.personaInput = s.originalPersona →
      hasChangesFn (manageRemoveClick s n true).state =
        (((removeFile s.uploadedFiles n).any fun f => !f.isExisting) ||
          (s.originalFiles.length != (removeFile s.uploadedFiles n).length))) := by
  refine ⟨?_, ?_, ?_, ?_, ?_, ?_⟩
  · intro s d
    unfold loadAgentData
    dsimp only
    rw [hasChangesFn_checkForChanges]
    simp [hasChangesFn, any_notExisting_serverFiles]
  · intro s hinv hnofile
    have hall : (s.uploadedFiles.any fun f => !f.isExisting) = false := by
      rw [List.any_eq_false]
      intro f hf
      have h1 := hinv f hf
      have h2 : ¬ f.isFile = true := by
        intro hc
        have := List.filter_eq_nil_iff.mp hnofile f hf
        exact this hc
      rw [Bool.not_eq_true] at h2
      rw [h2] at h1
      simp [← h1]
    unfold managePutSuccess
    dsimp only
    rw [hnofile]
    simp only [List.isEmpty_nil, Bool.not_true, Bool.false_eq_true, if_false]
    split <;> simp [hasChangesFn, hall]
  · intro s v hv
    unfold editNameState
    rw [hasChangesFn_checkForChanges]
    have hb : (v != s.originalName) = true := by
      simp only [bne_iff_ne, ne_eq]
      exact hv
    simp [hasChangesFn, hb]
  · intro s v hv
    unfold editPersonaState
    rw [hasChangesFn_checkForChanges]
    have hb : (v != s.originalPersona) = true := by
      simp only [bne_iff_ne, ne_eq]
      exact hv
    simp [hasChangesFn, hb]
  · intro s f hallow hdup
    unfold manageAddFileState
    rw [hallow]
    simp only [Bool.not_true, Bool.false_eq_true, if_false]
    rw [hdup]
    simp only [Bool.false_eq_true, if_false]
    rw [hasChangesFn_checkForChanges]
    simp [hasChangesFn, toNewEntry]
  · intro s n hname hpersona
    cases hfind : s.uploadedFiles.find? (fun f => f.name == n && f.isExisting) with
    | some y =>
        unfold manageRemoveClick
        rw [hfind]
        simp only [if_true]
        exact hasChangesFn_removeLocal s n hname hpersona
    | none =>
        unfold manageRemoveClick
        rw [hfind]
        exact hasChangesFn_removeLocal s n hname hpersona

/-- Agent record with one already-processed file, as the manage page
loads it. -/
def c5AgentOneFile : AgentData :=
  ⟨"Bot", "P", [⟨"a.pdf", 5, "application/pdf", true, "success"⟩]⟩

/-- The manage page loaded on that record. -/
def c5Loaded : ManageState := loadAgentData initialManageState c5AgentOneFile

/-- ... the user then removes `a.pdf` (server `DELETE` succeeds)... -/
def c5AfterRemove : ManageState := (manageRemoveClick c5Loaded "a.pdf" true).state

/-- ... and saves; the `PUT` succeeds and there are no new files. -/
def c5AfterSave : ManageState := (managePutSuccess c5AfterRemove).1

/-- Agent record with no files. -/
def c5AgentNoFiles : AgentData := ⟨"Bot", "P", []⟩

/-- The manage page loaded on the empty record, a new `b.pdf` added,
then that same `b.pdf` removed again. -/
def c5AfterAddRemove : ManageState :=
  (manageRemoveClick
    (manageAddFileState (loadAgentData initialManageState c5AgentNoFiles)
      ⟨"b.pdf", 3, "application/pdf"⟩).1
    "b.pdf" true).state

/-- Counterexample for C5 as stated: (i) right after a successful save
with no concurrent edits — the save that followed removing `a.pdf` — the
§4.4 comparison still reports a change, because the save path never
refreshes the file snapshot (`manage.js:725-776` updates name/persona
snapshots and clears only the cached flag); (ii) after removing the
just-added `b.pdf` — a file remove — it reports no change, since the set
matches the snapshot again. -/
theorem C5_counterexample_stale_snapshot :
    hasChangesFn c5AfterSave = true ∧ hasChangesFn c5AfterAddRemove = false := by
  decide

/-- Witness for C5: a name edit on the freshly loaded page reports a
change. -/
theorem C5_hasChanges_lifecycle_witness :
    hasChangesFn (editNameState c5Loaded "Robot") = true :=
  C5_hasChanges_lifecycle.2.2.1 c5Loaded "Robot" (by decide)

/-- C8: `updateFileStatus` never touches the staging set; with no row of
that filename it is a no-op on the UI as well (and, being total, raises
nothing); otherwise exactly the first matching row is rewritten — every
row before it and after it survives unchanged, in place — and even the
rewritten row keeps its filename: only its displayed status changes. -/
theorem C8_setStatus_noop_and_frame :
    (∀ (files : List FileEntry) (rows : List UIRow) (n st msg : String),
      (pageUpdateFileStatus files rows n st msg).1 = files) ∧
    (∀ (rows : List UIRow) (n st msg : String),
      (∀ r ∈ rows, r.filename ≠ n) →
      updateFileStatusRows rows n st msg = rows) ∧
    (∀ (rows : List UIRow) (n st msg : String),
      (∃ r ∈ rows, r.filename = n) →
      ∃ pre r post, rows = pre ++ r :: post ∧ r.filename = n ∧
        (∀ q ∈ pre, q.filename ≠ n) ∧
        updateFileStatusRows rows n st msg = pre ++ updateRow r st msg :: post) ∧
    (∀ (r : UIRow) (st msg : String), (updateRow r st msg).filename = r.filename) := by
  refine ⟨?_, ?_, ?_, ?_⟩
  · intro files rows n st msg
    rfl
  · intro rows n st msg
    induction rows with
    | nil => intro h; rfl
    | cons r rest ih =>
        intro h
        unfold updateFileStatusRows
        rw [if_neg (by simpa using h r (List.mem_cons_self r rest))]
        rw [ih (fun q hq => h q (List.mem_cons_of_mem r hq))]
  · intro rows n st msg
    induction rows with
    | nil => intro hex; simp at hex
    | cons r rest ih =>
        intro hex
        by_cases hr : r.filename = n
        · refine ⟨[], r, rest, rfl, hr, by simp, ?_⟩
          unfold updateFileStatusRows
          rw [if_pos (by simpa using hr)]
          rfl
        · have hex' : ∃ q ∈ rest, q.filename = n := by
            rcases hex with ⟨q, hq, hqn⟩
            rcases List.mem_cons.mp hq with h1 | h2
            · rw [h1] at hqn
              exact absurd hqn hr
            · exact ⟨q, h2, hqn⟩
          rcases ih hex' with ⟨pre, q, post, heq, hqn, hpre, hres⟩
          refine ⟨r :: pre, q, post, by rw [heq]; rfl, hqn, ?_, ?_⟩
          · intro x hx
            rcases List.mem_cons.mp hx with h1 | h2
            · rw [h1]
              exact hr
            · exact hpre x h2
          · unfold updateFileStatusRows
            rw [if_neg (by simpa using hr), hres]
            rfl
  · intro r st msg
    rfl

/-- A rendered row for `a.pdf`. -/
def sampleRow : UIRow :=
  ⟨"a.pdf", "Ready", "#6b7280", "file-status status-pending",
    "fas file-icon fa-file-pdf"⟩

/-- Witness for C8: a stale poll entry for an already-removed
`ghost.pdf` leaves the rendered list untouched. -/
theorem C8_setStatus_noop_and_frame_witness :
    updateFileStatusRows [sampleRow] "ghost.pdf" "success" "" = [sampleRow] :=
  C8_setStatus_noop_and_frame.2.1 [sampleRow] "ghost.pdf" "success" ""
    (by decide)

/-- Counterexample for C1 as stated: on the create page, adding
`a.pdf` of size 1 and then `a.pdf` of size 2 (same name, different size)
leaves the set with two entries named `a.pdf` — the second add is *not* a
no-op, because `config.js:138` compares name *and* size. -/
theorem C1_counterexample_config_duplicate_names :
    ¬ ((configRunOps
        [StagingOp.addBatch [⟨"a.pdf", 1, "application/pdf"⟩],
         StagingOp.addBatch [⟨"a.pdf", 2, "application/pdf"⟩]]).map
        FileEntry.name).Nodup := by
  decide

end Zapient
